import Mathlib

/-!
Shallow embedding of the per-user task-tracking service
(`mcp-bearer-token/puch-user-id-mcp-example.py`).

The Python store `TASKS : dict[str, dict[str, dict]]` is modelled as an
insertion-ordered association list from user id to an association list from
task id to `Task` (Python dicts preserve insertion order; updating an
existing key keeps its position, inserting a new key appends).  Each handler
is modelled as a pure function threading the store explicitly and returning
`Except Err result × Store`: the second component is the post-state of the
store, which is returned even on error because the Python code mutates the
global dict before some failure points (`TASKS.setdefault` in `_user_tasks`
runs before the not-found checks).

Nondeterministic effects are passed as explicit parameters: `tid` stands for
the `str(uuid.uuid4())` fresh identifier and `now` for the
`datetime.utcnow().isoformat()` timestamp.

String comparison, lowercasing, stripping and substring search are modelled
on the code-point list of the string, matching Python `<`/`<=` on `str`,
`str.lower` (ASCII range), `str.strip` (ASCII whitespace) and `in` / `find`.
-/

namespace TaskApp

/-- Code-point lexicographic strict order on strings, as lists of
characters; this is Python string `<`. -/
def strLt : List Char → List Char → Bool
  | _, [] => false
  | [], _ :: _ => true
  | a :: as, b :: bs =>
    if a.toNat < b.toNat then true
    else if b.toNat < a.toNat then false
    else strLt as bs

/-- Python `str.strip` whitespace test, for the ASCII whitespace characters. -/
def isPySpace (c : Char) : Bool :=
  c == ' ' || c == '\t' || c == '\n' || c == '\r' || c == '\x0b' || c == '\x0c'

/-- Python `title.strip()`: drop leading and trailing whitespace. -/
def pyStrip (s : String) : String :=
  ⟨((s.data.dropWhile isPySpace).reverse.dropWhile isPySpace).reverse⟩

/-- Python `str.lower()`, modelled character-wise with `Char.toLower`
(ASCII case mapping). -/
def pyLower (s : String) : String := ⟨s.data.map Char.toLower⟩

/-- Boolean test that `q` occurs as a leading run of `s`. -/
def isPrefixB : List Char → List Char → Bool
  | [], _ => true
  | _ :: _, [] => false
  | a :: as, b :: bs => a == b && isPrefixB as bs

/-- Boolean test that `q` occurs contiguously in `s`: Python `q in s`
(equivalently `s.find(q) != -1`). -/
def isInfixB : List Char → List Char → Bool
  | q, [] => q.isEmpty
  | q, s@(_ :: rest) => isPrefixB q s || isInfixB q rest

/-- Task record, the fixed shape of the dicts built by `add_task`. -/
structure Task where
  id : String
  title : String
  status : String
  due_at : Option String
  priority : String
  tags : List String
  notes : Option String
  created_at : String
  updated_at : String
deriving DecidableEq, Repr

/-- Wire-level error codes used by the handlers (`mcp.types`). -/
inductive ErrCode where
  | invalidParams
  | internalError
deriving DecidableEq, Repr

/-- Payload of a raised `McpError ErrorData(code, message)`. -/
structure Err where
  code : ErrCode
  msg : String
deriving DecidableEq, Repr

/-- Error raised when `task_id` is absent from the user's sub-mapping: the
spec's `NotFound` kind, surfaced with the `INVALID_PARAMS` wire code and the
message `f"No task {task_id} for user"`. -/
def notFoundErr (task_id : String) : Err :=
  ⟨ErrCode.invalidParams, "No task " ++ task_id ++ " for user"⟩

/-- Error raised by `_user_tasks` for an empty `puch_user_id`. -/
def emptyUserErr : Err := ⟨ErrCode.invalidParams, "puch_user_id is required"⟩

/-- Insertion-ordered dictionary lookup (`d.get(k)` / `d[k]`). -/
def lookupA {α : Type} : List (String × α) → String → Option α
  | [], _ => none
  | (k1, v) :: rest, k => if k1 = k then some v else lookupA rest k

/-- Insertion-ordered dictionary store `d[k] = v`: updating an existing key
keeps its position, a new key is appended at the end. -/
def setA {α : Type} : List (String × α) → String → α → List (String × α)
  | [], k, v => [(k, v)]
  | (k1, v1) :: rest, k, v =>
    if k1 = k then (k, v) :: rest else (k1, v1) :: setA rest k v

/-- Dictionary deletion `del d[k]` (removes the entry with key `k`). -/
def delA {α : Type} : List (String × α) → String → List (String × α)
  | [], _ => []
  | (k1, v1) :: rest, k =>
    if k1 = k then delA rest k else (k1, v1) :: delA rest k

/-- The in-memory store `TASKS`: user id → (task id → Task). -/
def Store : Type := List (String × List (String × Task))

instance : DecidableEq Store := by
  unfold Store
  infer_instance

/-- Helper `_user_tasks(puch_user_id)`: raises `INVALID_PARAMS` on an empty
user id, otherwise `TASKS.setdefault(puch_user_id, {})` — returns the user's
sub-mapping, creating an empty one (a store mutation) if absent. -/
def userTasks (store : Store) (uid : String) :
    Except Err (List (String × Task)) × Store :=
  if uid = "" then (Except.error emptyUserErr, store)
  else
    match lookupA store uid with
    | some m => (Except.ok m, store)
    | none => (Except.ok [], setA store uid [])

/-- The user's sub-mapping viewed through `lookupA`, with the empty mapping
for an unseen user (what `_user_tasks` returns on a non-empty id). -/
def userSub (store : Store) (uid : String) : List (String × Task) :=
  (lookupA store uid).getD []

/-- Python `priority or "normal"` / truthiness defaulting for strings. -/
def orDefault (o : Option String) (d : String) : String :=
  match o with
  | some s => if s = "" then d else s
  | none => d

/-- Handler `add_task`: validates the title, touches the user's sub-mapping,
builds the new task dict and inserts it under the fresh id `tid`.  `tid` and
`now` model `str(uuid.uuid4())` and `_now()`. -/
def add_task (store : Store) (uid title : String) (due_at : Option String)
    (priority : Option String) (tags : Option (List String))
    (notes : Option String) (tid now : String) : Except Err Task × Store :=
  if title = "" ∨ pyStrip title = "" then
    (Except.error ⟨ErrCode.invalidParams, "title cannot be empty"⟩, store)
  else
    match userTasks store uid with
    | (Except.error e, s1) => (Except.error e, s1)
    | (Except.ok m, s1) =>
      let task : Task :=
        { id := tid
          title := pyStrip title
          status := "open"
          due_at := due_at
          priority := orDefault priority "normal"
          tags := tags.getD []
          notes := notes
          created_at := now
          updated_at := now }
      (Except.ok task, setA s1 uid (setA m tid task))

/-- Status filter body `t["status"] == status`. -/
def statusMatch (s : String) (t : Task) : Bool := t.status == s

/-- Tag filter body `tag in (t.get("tags") or [])`. -/
def tagMatch (s : String) (t : Task) : Bool := t.tags.contains s

/-- Search filter body
`q in t["title"].lower() or (t.get("notes") or "").lower().find(q) != -1`
with `q = search.lower()`. -/
def searchMatch (s : String) (t : Task) : Bool :=
  isInfixB (pyLower s).data (pyLower t.title).data ||
  isInfixB (pyLower s).data (pyLower (t.notes.getD "")).data

/-- One optional filter applied under Python truthiness: `if o: filter`.
`none` and `some ""` are both falsy and leave the list unchanged. -/
def applyFilter (o : Option String) (p : String → Task → Bool)
    (ts : List Task) : List Task :=
  match o with
  | some s => if s = "" then ts else ts.filter (p s)
  | none => ts

/-- Sort key `(t.get("due_at") or "9999", t["created_at"])`, first
component: a missing or empty `due_at` is replaced by the literal sentinel
string `"9999"`. -/
def dueKey (t : Task) : String :=
  match t.due_at with
  | some d => if d = "" then "9999" else d
  | none => "9999"

/-- Non-strict comparison of the sort keys of two tasks, Python tuple
`<=` on `(dueKey, created_at)`. -/
def taskLE (a b : Task) : Bool :=
  strLt (dueKey a).data (dueKey b).data ||
  ((dueKey a).data == (dueKey b).data &&
    !strLt b.created_at.data a.created_at.data)

/-- Sort-key order as a relation, for `List.insertionSort`. -/
def taskOrd (a b : Task) : Prop := taskLE a b = true

instance : DecidableRel taskOrd := fun a b =>
  inferInstanceAs (Decidable (taskLE a b = true))

/-- Handler `list_tasks`: collect the user's task dicts, apply the three
truthy filters, sort by `(due_at or "9999", created_at)` (a stable sort,
like Python `list.sort`).  The `except Exception` handler of this one
function has no preceding `except McpError: raise`, so the `McpError`
raised by `_user_tasks` on an empty user id is caught and re-reported with
code `INTERNAL_ERROR` and the original message. -/
def list_tasks (store : Store) (uid : String)
    (status tag search : Option String) : Except Err (List Task) × Store :=
  match userTasks store uid with
  | (Except.error e, s1) => (Except.error ⟨ErrCode.internalError, e.msg⟩, s1)
  | (Except.ok m, s1) =>
    let ts := m.map Prod.snd
    let ts := applyFilter status statusMatch ts
    let ts := applyFilter tag tagMatch ts
    let ts := applyFilter search searchMatch ts
    (Except.ok (List.insertionSort taskOrd ts), s1)

/-- Handler `get_task`: look the task up in the user's sub-mapping, fail
with the not-found error if absent. -/
def get_task (store : Store) (uid tid : String) : Except Err Task × Store :=
  match userTasks store uid with
  | (Except.error e, s1) => (Except.error e, s1)
  | (Except.ok m, s1) =>
    match lookupA m tid with
    | none => (Except.error (notFoundErr tid), s1)
    | some t => (Except.ok t, s1)

/-- The in-place update performed by `complete_task`:
`t["status"] = "completed"; t["updated_at"] = _now()`. -/
def completedTask (t : Task) (now : String) : Task :=
  { t with status := "completed", updated_at := now }

/-- Handler `complete_task`: set `status` to `"completed"`, refresh
`updated_at` to `now`, leave the other fields as they were, and return the
updated task; the write goes through to the store. -/
def complete_task (store : Store) (uid tid now : String) :
    Except Err Task × Store :=
  match userTasks store uid with
  | (Except.error e, s1) => (Except.error e, s1)
  | (Except.ok m, s1) =>
    match lookupA m tid with
    | none => (Except.error (notFoundErr tid), s1)
    | some t =>
      (Except.ok (completedTask t now), setA s1 uid (setA m tid (completedTask t now)))

/-- Handler `remove_task`: delete the entry if present and return the
removed id (the JSON payload is `{"removed": task_id}`). -/
def remove_task (store : Store) (uid tid : String) :
    Except Err String × Store :=
  match userTasks store uid with
  | (Except.error e, s1) => (Except.error e, s1)
  | (Except.ok m, s1) =>
    match lookupA m tid with
    | none => (Except.error (notFoundErr tid), s1)
    | some _ => (Except.ok tid, setA s1 uid (delA m tid))

/-- Values of a user's sub-mapping in insertion order: what
`_user_tasks(uid).values()` yields. -/
def userVals (store : Store) (uid : String) : List Task :=
  (userSub store uid).map Prod.snd

/-- The effect of `TASKS.setdefault(uid, {})` on the store: unchanged when
the user is present, otherwise an empty sub-mapping is appended. -/
def touch (store : Store) (uid : String) : Store :=
  match lookupA store uid with
  | some _ => store
  | none => setA store uid []

theorem strLt_total :
    ∀ as bs : List Char, strLt as bs = true ∨ strLt bs as = true ∨ as = bs := by
  intro as
  induction as with
  | nil => intro bs; cases bs <;> simp [strLt]
  | cons a as ih =>
    intro bs
    cases bs with
    | nil => simp [strLt]
    | cons b bs =>
      rcases Nat.lt_trichotomy a.toNat b.toNat with h | h | h
      · left; simp [strLt, h]
      · have hab : a = b := Char.ext (by
          have hv : a.val.toNat = b.val.toNat := h
          exact UInt32.toNat.inj hv)
        subst hab
        rcases ih bs with h2 | h2 | h2
        · left; simp [strLt, h2]
        · right; left; simp [strLt, h2]
        · right; right; simp [h2]
      · right; left; simp [strLt, h]

theorem strLt_trans : ∀ as bs cs : List Char,
    strLt as bs = true → strLt bs cs = true → strLt as cs = true := by
  intro as
  induction as with
  | nil =>
    intro bs cs h1 h2
    cases cs with
    | nil => cases bs <;> simp [strLt] at h1 h2
    | cons c cs => simp [strLt]
  | cons a as ih =>
    intro bs cs h1 h2
    cases bs with
    | nil => simp [strLt] at h1
    | cons b bs =>
      cases cs with
      | nil => simp [strLt] at h2
      | cons c cs =>
        simp only [strLt] at h1 h2 ⊢
        split at h1
        · rename_i hab
          split at h2
          · rename_i hbc; simp [Nat.lt_trans hab hbc]
          · split at h2
            · simp at h2
            · rename_i hcb hbc
              have hx : b.toNat = c.toNat := by omega
              simp [hx ▸ hab]
        · split at h1
          · simp at h1
          · rename_i hba hab2
            have hab : a.toNat = b.toNat := by omega
            split at h2
            · rename_i hbc; simp [hab ▸ hbc]
            · split at h2
              · simp at h2
              · rename_i hcb hbc
                have hbc2 : b.toNat = c.toNat := by omega
                have hac : a.toNat = c.toNat := hab.trans hbc2
                simp [hac, ih bs cs h1 h2]

theorem strLt_irrefl : ∀ as : List Char, strLt as as = false := by
  intro as
  induction as with
  | nil => simp [strLt]
  | cons a as ih => simp [strLt, ih]

theorem strLt_asymm (as bs : List Char)
    (h1 : strLt as bs = true) (h2 : strLt bs as = true) : False := by
  have h3 := strLt_trans as bs as h1 h2
  rw [strLt_irrefl] at h3
  exact Bool.false_ne_true h3

theorem taskLE_total (a b : Task) : taskLE a b = true ∨ taskLE b a = true := by
  unfold taskLE
  rcases strLt_total (dueKey a).data (dueKey b).data with h | h | h
  · left; simp [h]
  · right; simp [h]
  · cases hc : strLt b.created_at.data a.created_at.data
    · left; simp [h, hc]
    · right
      cases hc2 : strLt a.created_at.data b.created_at.data
      · simp [h, hc2]
      · exact absurd (strLt_asymm _ _ hc2 hc) (fun f => f)

theorem taskLE_trans (a b c : Task)
    (h1 : taskLE a b = true) (h2 : taskLE b c = true) : taskLE a c = true := by
  unfold taskLE at h1 h2 ⊢
  simp only [Bool.or_eq_true, Bool.and_eq_true, beq_iff_eq,
    Bool.not_eq_true'] at h1 h2 ⊢
  rcases h1 with h1 | ⟨h1e, h1c⟩
  · rcases h2 with h2 | ⟨h2e, h2c⟩
    · exact Or.inl (strLt_trans _ _ _ h1 h2)
    · exact Or.inl (h2e ▸ h1)
  · rcases h2 with h2 | ⟨h2e, h2c⟩
    · exact Or.inl (h1e ▸ h2)
    · refine Or.inr ⟨h1e.trans h2e, ?_⟩
      cases hq : strLt c.created_at.data a.created_at.data
      · rfl
      · exfalso
        rcases strLt_total a.created_at.data b.created_at.data with h4 | h4 | h4
        · have h5 := strLt_trans _ _ _ hq h4
          rw [h2c] at h5
          exact Bool.false_ne_true h5
        · rw [h1c] at h4
          exact Bool.false_ne_true h4
        · rw [h4] at hq
          rw [h2c] at hq
          exact Bool.false_ne_true hq
  -- done

instance : IsTotal Task taskOrd := ⟨fun a b => taskLE_total a b⟩

instance : IsTrans Task taskOrd := ⟨fun a b c => taskLE_trans a b c⟩

theorem lookupA_setA_self {α : Type} (m : List (String × α)) (k : String)
    (v : α) : lookupA (setA m k v) k = some v := by
  induction m with
  | nil => simp [setA, lookupA]
  | cons p rest ih =>
    obtain ⟨k1, v1⟩ := p
    by_cases h : k1 = k
    · simp [setA, h, lookupA]
    · simp [setA, h, lookupA, ih]

theorem lookupA_setA_ne {α : Type} (m : List (String × α)) (k kq : String)
    (v : α) (h : kq ≠ k) : lookupA (setA m k v) kq = lookupA m kq := by
  induction m with
  | nil => simp [setA, lookupA, Ne.symm h]
  | cons p rest ih =>
    obtain ⟨k1, v1⟩ := p
    by_cases h1 : k1 = k
    · subst h1
      simp [setA, lookupA, Ne.symm h]
    · simp [setA, h1, lookupA, ih]

theorem lookupA_delA_self {α : Type} (m : List (String × α)) (k : String) :
    lookupA (delA m k) k = none := by
  induction m with
  | nil => simp [delA, lookupA]
  | cons p rest ih =>
    obtain ⟨k1, v1⟩ := p
    by_cases h : k1 = k
    · simp [delA, h, ih]
    · simp [delA, h, lookupA, ih]

theorem lookupA_delA_ne {α : Type} (m : List (String × α)) (k kq : String)
    (h : kq ≠ k) : lookupA (delA m k) kq = lookupA m kq := by
  induction m with
  | nil => simp [delA, lookupA]
  | cons p rest ih =>
    obtain ⟨k1, v1⟩ := p
    by_cases h1 : k1 = k
    · subst h1
      simp [delA, lookupA, Ne.symm h, ih]
    · simp [delA, h1, lookupA, ih]

theorem userTasks_ok (store : Store) (uid : String) (h : uid ≠ "") :
    userTasks store uid = (Except.ok (userSub store uid), touch store uid) := by
  unfold userTasks userSub touch
  simp only [h, if_false]
  cases lookupA store uid <;> simp

theorem lookupA_touch_self (store : Store) (uid : String) :
    lookupA (touch store uid) uid = some (userSub store uid) := by
  unfold touch userSub
  cases h : lookupA store uid with
  | none => simp [lookupA_setA_self]
  | some m => simp [h]

theorem lookupA_touch_ne (store : Store) (uid v : String) (h : v ≠ uid) :
    lookupA (touch store uid) v = lookupA store v := by
  unfold touch
  cases hq : lookupA store uid with
  | none => simp [lookupA_setA_ne _ _ _ _ h]
  | some m => rfl

theorem touch_of_found (store : Store) (uid : String)
    (h : (lookupA store uid).isSome = true) : touch store uid = store := by
  unfold touch
  cases hq : lookupA store uid with
  | none => rw [hq] at h; simp at h
  | some m => rfl

/-- Concrete task with no due date, created first. -/
def taskNoDue : Task :=
  { id := "a", title := "alpha", status := "open", due_at := none,
    priority := "normal", tags := ["x"], notes := none,
    created_at := "2024-01-01T00:00:00", updated_at := "2024-01-01T00:00:00" }

/-- Concrete completed task due in year 9999. -/
def taskFarDue : Task :=
  { id := "b", title := "beta", status := "completed",
    due_at := some "9999-06-01T00:00:00", priority := "high", tags := ["y"],
    notes := some "remember the milk",
    created_at := "2023-01-01T00:00:00", updated_at := "2023-01-01T00:00:00" }

/-- Concrete sub-mapping holding the two tasks above. -/
def demoSub : List (String × Task) := [("a", taskNoDue), ("b", taskFarDue)]

/-- Concrete store: one user `"u"` owning `demoSub`. -/
def demoStore : Store := [("u", demoSub)]

/-- Concrete store agreeing with `demoStore` on user `"u"` but holding
another user `"z"` as well. -/
def demoStore2 : Store := [("z", []), ("u", demoSub)]

/-- C1 counterexample: in `list` the sentinel substituted for a missing
`due_at` is the string `"9999"`, which does NOT lexically exceed every real
ISO-8601 date.  On a store holding one task with no due date and one task
due in year 9999, the task with the missing `due_at` is returned FIRST,
before a task whose `due_at` is present — contradicting the claim that a
missing `due_at` sorts after every present one. -/
theorem C1_counterexample :
    (list_tasks demoStore "u" none none none).1 =
      Except.ok [taskNoDue, taskFarDue] ∧
    taskNoDue.due_at = none ∧
    taskFarDue.due_at = some "9999-06-01T00:00:00" :=
  ⟨rfl, rfl, rfl⟩

/-- C1 (amended): `list` with no filters returns all of the user's tasks,
sorted ascending by the key `(due_at or "9999", created_at)` — so a missing
`due_at` sorts after every present `due_at` that lexically precedes `"9999"`,
but not after due dates of year 9999 and beyond, because the code's sentinel
`"9999"` does not lexically exceed every real ISO-8601 date. -/
theorem C1_sort_amended (store : Store) (uid : String) (h : uid ≠ "") :
    ∃ res, (list_tasks store uid none none none).1 = Except.ok res ∧
      res.Perm (userVals store uid) ∧ res.Pairwise taskOrd := by
  refine ⟨List.insertionSort taskOrd (userVals store uid), ?_, ?_, ?_⟩
  · simp [list_tasks, userTasks_ok store uid h, applyFilter, userVals]
  · exact List.perm_insertionSort taskOrd _
  · exact List.sorted_insertionSort taskOrd _

theorem C1_sort_amended_witness :
    ∃ res, (list_tasks demoStore "u" none none none).1 = Except.ok res ∧
      res.Perm (userVals demoStore "u") ∧ res.Pairwise taskOrd :=
  C1_sort_amended demoStore "u" (by decide)

/-- C2 (code bug): with an empty `user_id`, `add`, `get`, `complete` and
`remove` fail with the `INVALID_PARAMS` code as the claim says, but
`list_tasks` has no `except McpError: raise` clause before its generic
`except Exception` handler, so the `INVALID_PARAMS` `McpError` raised by
`_user_tasks` is caught and re-reported with code `INTERNAL_ERROR` (and the
original message), contradicting the claim for the `list` operation. -/
theorem C2_empty_uid_code_bug :
    (add_task [] "" "some title" none none none none "t" "n").1 =
      Except.error emptyUserErr ∧
    (get_task [] "" "t").1 = Except.error emptyUserErr ∧
    (complete_task [] "" "t" "n").1 = Except.error emptyUserErr ∧
    (remove_task [] "" "t").1 = Except.error emptyUserErr ∧
    emptyUserErr.code = ErrCode.invalidParams ∧
    (list_tasks [] "" none none none).1 =
      Except.error ⟨ErrCode.internalError, emptyUserErr.msg⟩ :=
  ⟨rfl, rfl, rfl, rfl, rfl, rfl⟩

/-- C3 counterexample: `list` and `get` on a previously unseen user DO
mutate the store — `_user_tasks` calls `TASKS.setdefault(puch_user_id, {})`,
which inserts an empty sub-mapping for that user.  Starting from the empty
store, both leave the store holding an entry for `"u"`. -/
theorem C3_counterexample :
    (list_tasks [] "u" none none none).2 = [("u", [])] ∧
    (get_task [] "u" "t").2 = [("u", [])] ∧
    ([] : Store) ≠ [("u", [])] := by
  refine ⟨rfl, rfl, ?_⟩
  decide

/-- C3 (amended): `get` and `list` never change the contents of any user's
sub-mapping: their only store effect is the lazy creation of an empty
sub-mapping for a previously unseen user (`touch`).  If the user already
has a sub-mapping the store is left completely unchanged, and every other
user's entry is untouched in all cases. -/
theorem C3_get_list_touch_only (store : Store) (uid tid : String)
    (st tg se : Option String) (h : uid ≠ "") :
    (get_task store uid tid).2 = touch store uid ∧
    (list_tasks store uid st tg se).2 = touch store uid ∧
    (∀ v, v ≠ uid → lookupA (touch store uid) v = lookupA store v) ∧
    ((lookupA store uid).isSome = true → touch store uid = store) := by
  refine ⟨?_, ?_, fun v hv => lookupA_touch_ne store uid v hv,
    touch_of_found store uid⟩
  · cases hq : lookupA (userSub store uid) tid <;>
      simp [get_task, userTasks_ok store uid h, hq]
  · simp [list_tasks, userTasks_ok store uid h]

theorem C3_get_list_touch_only_witness :
    (get_task demoStore "u" "a").2 = touch demoStore "u" ∧
    (list_tasks demoStore "u" none none none).2 = touch demoStore "u" ∧
    (∀ v, v ≠ "u" → lookupA (touch demoStore "u") v = lookupA demoStore v) ∧
    ((lookupA demoStore "u").isSome = true → touch demoStore "u" = demoStore) :=
  C3_get_list_touch_only demoStore "u" "a" none none none (by decide)

/-- C8: `add` with a title that is empty or whitespace-only fails with the
`INVALID_PARAMS` error `"title cannot be empty"` and returns the store
completely unchanged (the title check precedes `_user_tasks`, so not even
an empty sub-mapping is created).  The hypothesis `pyStrip title = ""`
states that the title is empty or all-whitespace. -/
theorem C8_blank_title (store : Store) (uid title : String)
    (due pri : Option String) (tags : Option (List String))
    (notes : Option String) (tid now : String) (h : pyStrip title = "") :
    add_task store uid title due pri tags notes tid now =
      (Except.error ⟨ErrCode.invalidParams, "title cannot be empty"⟩, store) := by
  unfold add_task
  rw [if_pos (Or.inr h)]

theorem C8_blank_title_witness :
    pyStrip " \t " = "" ∧
    add_task demoStore "u" " \t " none none none none "t" "n" =
      (Except.error ⟨ErrCode.invalidParams, "title cannot be empty"⟩,
        demoStore) :=
  ⟨rfl, C8_blank_title demoStore "u" " \t " none none none none "t" "n" rfl⟩

/-- C4: for a non-empty user id, a title that is non-empty after stripping,
and a fresh identifier `tid` (modelling `uuid.uuid4()`) not already present
in the user's sub-mapping, `add` returns the task with status `"open"`,
`created_at = updated_at = now`, the stripped title, defaulted priority and
tags, and its whole store effect is inserting exactly that task into the
user's sub-mapping. -/
theorem C4_add (store : Store) (uid title : String) (due pri : Option String)
    (tags : Option (List String)) (notes : Option String) (tid now : String)
    (huid : uid ≠ "") (htitle : pyStrip title ≠ "")
    (hfresh : lookupA (userSub store uid) tid = none) :
    ∃ t : Task,
      (add_task store uid title due pri tags notes tid now).1 = Except.ok t ∧
      t.id = tid ∧ t.status = "open" ∧ t.title = pyStrip title ∧
      t.created_at = now ∧ t.updated_at = now ∧
      t.due_at = due ∧ t.notes = notes ∧
      (pri = none → t.priority = "normal") ∧
      (tags = none → t.tags = []) ∧
      (add_task store uid title due pri tags notes tid now).2 =
        setA (touch store uid) uid (setA (userSub store uid) tid t) ∧
      lookupA (userSub store uid) tid = none ∧
      lookupA (setA (userSub store uid) tid t) tid = some t := by
  have hcond : ¬(title = "" ∨ pyStrip title = "") := by
    rintro (rfl | hx)
    · exact htitle rfl
    · exact htitle hx
  refine ⟨{ id := tid, title := pyStrip title, status := "open", due_at := due, priority := orDefault pri "normal", tags := tags.getD [], notes := notes, created_at := now, updated_at := now }, ?_, rfl, rfl, rfl, rfl, rfl,
    rfl, rfl, ?_, ?_, ?_, hfresh, lookupA_setA_self _ _ _⟩
  · simp [add_task, hcond, userTasks_ok store uid huid]
  · intro hp; subst hp; rfl
  · intro hg; subst hg; rfl
  · simp [add_task, hcond, userTasks_ok store uid huid]

theorem C4_add_witness :
    ∃ t : Task,
      (add_task demoStore "u" " new task " none none none none "c"
        "2025-01-01T00:00:00").1 = Except.ok t ∧
      t.id = "c" ∧ t.status = "open" ∧ t.title = pyStrip " new task " ∧
      t.created_at = "2025-01-01T00:00:00" ∧
      t.updated_at = "2025-01-01T00:00:00" ∧
      t.due_at = none ∧ t.notes = none ∧
      (none = (none : Option String) → t.priority = "normal") ∧
      (none = (none : Option (List String)) → t.tags = []) ∧
      (add_task demoStore "u" " new task " none none none none "c"
        "2025-01-01T00:00:00").2 =
        setA (touch demoStore "u") "u" (setA (userSub demoStore "u") "c" t) ∧
      lookupA (userSub demoStore "u") "c" = none ∧
      lookupA (setA (userSub demoStore "u") "c" t) "c" = some t :=
  C4_add demoStore "u" " new task " none none none none "c"
    "2025-01-01T00:00:00" (by decide) (by decide) rfl

/-- Membership in one truthily-applied filter. -/
theorem mem_applyFilter (o : Option String) (p : String → Task → Bool)
    (ts : List Task) (t : Task) :
    t ∈ applyFilter o p ts ↔
      (t ∈ ts ∧ ∀ s, o = some s → s ≠ "" → p s t = true) := by
  cases o with
  | none => simp [applyFilter]
  | some s =>
    by_cases hs : s = ""
    · subst hs; simp [applyFilter]
    · simp [applyFilter, hs, List.mem_filter]

/-- Tag membership filter agrees with list membership. -/
theorem tagMatch_iff (s : String) (t : Task) :
    tagMatch s t = true ↔ s ∈ t.tags := by
  simp [tagMatch, List.contains, List.elem_iff]

/-- Status filter agrees with equality of status strings. -/
theorem statusMatch_iff (s : String) (t : Task) :
    statusMatch s t = true ↔ t.status = s := by
  simp [statusMatch]

/-- C5: a task is returned by `list` exactly when it belongs to the user and
passes each given (truthy) filter: exact status equality, tag membership,
and case-insensitive substring match of the search string against title or
notes (`searchMatch`, with missing notes read as the empty string). -/
theorem C5_filters (store : Store) (uid : String) (st tg se : Option String)
    (h : uid ≠ "") :
    ∃ res, (list_tasks store uid st tg se).1 = Except.ok res ∧
      ∀ t, t ∈ res ↔
        (t ∈ userVals store uid ∧
         (∀ s, st = some s → s ≠ "" → t.status = s) ∧
         (∀ s, tg = some s → s ≠ "" → s ∈ t.tags) ∧
         (∀ s, se = some s → s ≠ "" → searchMatch s t = true)) := by
  refine ⟨List.insertionSort taskOrd
      (applyFilter se searchMatch (applyFilter tg tagMatch
        (applyFilter st statusMatch (userVals store uid)))), ?_, ?_⟩
  · simp [list_tasks, userTasks_ok store uid h, userVals]
  · intro t
    rw [List.mem_insertionSort, mem_applyFilter, mem_applyFilter,
      mem_applyFilter]
    constructor
    · rintro ⟨⟨⟨hm, hst⟩, htg⟩, hse⟩
      exact ⟨hm, fun s hs hne => (statusMatch_iff s t).mp (hst s hs hne),
        fun s hs hne => (tagMatch_iff s t).mp (htg s hs hne), hse⟩
    · rintro ⟨hm, hst, htg, hse⟩
      exact ⟨⟨⟨hm, fun s hs hne => (statusMatch_iff s t).mpr (hst s hs hne)⟩,
        fun s hs hne => (tagMatch_iff s t).mpr (htg s hs hne)⟩, hse⟩

theorem C5_filters_witness :
    ∃ res, (list_tasks demoStore "u" (some "completed") (some "y")
        (some "REMemBER")).1 = Except.ok res ∧
      ∀ t, t ∈ res ↔
        (t ∈ userVals demoStore "u" ∧
         (∀ s, (some "completed" : Option String) = some s → s ≠ "" →
           t.status = s) ∧
         (∀ s, (some "y" : Option String) = some s → s ≠ "" → s ∈ t.tags) ∧
         (∀ s, (some "REMemBER" : Option String) = some s → s ≠ "" →
           searchMatch s t = true)) :=
  C5_filters demoStore "u" (some "completed") (some "y") (some "REMemBER")
    (by decide)

/-- C6: `complete` on an existing task (already completed or not) succeeds,
returns the task with status `"completed"` and `updated_at = now` and every
other field unchanged, writes exactly that task back, and under a monotone
clock (`now` not lexically below the prior `updated_at`) the new
`updated_at` is not below the prior one; when the task id is absent it
fails with the not-found error. -/
theorem C6_complete (store : Store) (uid tid now : String) (huid : uid ≠ "") :
    (∀ t, lookupA (userSub store uid) tid = some t →
      (complete_task store uid tid now).1 =
        Except.ok (completedTask t now) ∧
      (complete_task store uid tid now).2 =
        setA (touch store uid) uid
          (setA (userSub store uid) tid (completedTask t now)) ∧
      (completedTask t now).id = t.id ∧
      (completedTask t now).title = t.title ∧
      (completedTask t now).due_at = t.due_at ∧
      (completedTask t now).priority = t.priority ∧
      (completedTask t now).tags = t.tags ∧
      (completedTask t now).notes = t.notes ∧
      (completedTask t now).created_at = t.created_at ∧
      (completedTask t now).status = "completed" ∧
      (completedTask t now).updated_at = now ∧
      (strLt now.data t.updated_at.data = false →
        strLt (completedTask t now).updated_at.data
          t.updated_at.data = false)) ∧
    (lookupA (userSub store uid) tid = none →
      (complete_task store uid tid now).1 = Except.error (notFoundErr tid)) := by
  constructor
  · intro t ht
    refine ⟨?_, ?_, rfl, rfl, rfl, rfl, rfl, rfl, rfl, rfl, rfl,
      fun hc => hc⟩
    · simp [complete_task, userTasks_ok store uid huid, ht, completedTask]
    · simp [complete_task, userTasks_ok store uid huid, ht, completedTask]
  · intro hn
    simp [complete_task, userTasks_ok store uid huid, hn]

theorem C6_complete_witness :
    (∀ t, lookupA (userSub demoStore "u") "b" = some t →
      (complete_task demoStore "u" "b" "2025-06-01T00:00:00").1 =
        Except.ok (completedTask t "2025-06-01T00:00:00") ∧
      (complete_task demoStore "u" "b" "2025-06-01T00:00:00").2 =
        setA (touch demoStore "u") "u" (setA (userSub demoStore "u") "b"
          (completedTask t "2025-06-01T00:00:00")) ∧
      (completedTask t "2025-06-01T00:00:00").id = t.id ∧
      (completedTask t "2025-06-01T00:00:00").title = t.title ∧
      (completedTask t "2025-06-01T00:00:00").due_at = t.due_at ∧
      (completedTask t "2025-06-01T00:00:00").priority = t.priority ∧
      (completedTask t "2025-06-01T00:00:00").tags = t.tags ∧
      (completedTask t "2025-06-01T00:00:00").notes = t.notes ∧
      (completedTask t "2025-06-01T00:00:00").created_at = t.created_at ∧
      (completedTask t "2025-06-01T00:00:00").status = "completed" ∧
      (completedTask t "2025-06-01T00:00:00").updated_at =
        "2025-06-01T00:00:00" ∧
      (strLt "2025-06-01T00:00:00".data t.updated_at.data = false →
        strLt (completedTask t "2025-06-01T00:00:00").updated_at.data
          t.updated_at.data = false)) ∧
    (lookupA (userSub demoStore "u") "b" = none →
      (complete_task demoStore "u" "b" "2025-06-01T00:00:00").1 =
        Except.error (notFoundErr "b")) :=
  C6_complete demoStore "u" "b" "2025-06-01T00:00:00" (by decide)

/-- C7: `remove` on a present task id returns the removed id (the payload
`JSON dict with key removed`), its whole store effect is deleting exactly
that entry from the user's sub-mapping (every other task id keeps its
binding), and a following `get` with the same ids fails with the not-found
error; on an absent id, `remove` itself fails with the not-found error. -/
theorem C7_remove (store : Store) (uid tid : String) (huid : uid ≠ "") :
    ((lookupA (userSub store uid) tid).isSome = true →
      (remove_task store uid tid).1 = Except.ok tid ∧
      (remove_task store uid tid).2 =
        setA (touch store uid) uid (delA (userSub store uid) tid) ∧
      lookupA (delA (userSub store uid) tid) tid = none ∧
      (∀ t2, t2 ≠ tid →
        lookupA (delA (userSub store uid) tid) t2 =
          lookupA (userSub store uid) t2) ∧
      (get_task (remove_task store uid tid).2 uid tid).1 =
        Except.error (notFoundErr tid)) ∧
    ((lookupA (userSub store uid) tid).isNone = true →
      (remove_task store uid tid).1 = Except.error (notFoundErr tid)) := by
  constructor
  · intro hs
    cases hq : lookupA (userSub store uid) tid with
    | none => rw [hq] at hs; simp at hs
    | some t =>
      have hpost : (remove_task store uid tid).2 =
          setA (touch store uid) uid (delA (userSub store uid) tid) := by
        simp [remove_task, userTasks_ok store uid huid, hq]
      refine ⟨?_, hpost, lookupA_delA_self _ _,
        fun t2 h2 => lookupA_delA_ne _ _ _ h2, ?_⟩
      · simp [remove_task, userTasks_ok store uid huid, hq]
      · rw [hpost]
        simp [get_task, userTasks, huid, lookupA_setA_self,
          lookupA_delA_self]
  · intro hn
    cases hq : lookupA (userSub store uid) tid with
    | some t => rw [hq] at hn; simp at hn
    | none => simp [remove_task, userTasks_ok store uid huid, hq]

theorem C7_remove_witness :
    ((lookupA (userSub demoStore "u") "a").isSome = true →
      (remove_task demoStore "u" "a").1 = Except.ok "a" ∧
      (remove_task demoStore "u" "a").2 =
        setA (touch demoStore "u") "u" (delA (userSub demoStore "u") "a") ∧
      lookupA (delA (userSub demoStore "u") "a") "a" = none ∧
      (∀ t2, t2 ≠ "a" →
        lookupA (delA (userSub demoStore "u") "a") t2 =
          lookupA (userSub demoStore "u") t2) ∧
      (get_task (remove_task demoStore "u" "a").2 "u" "a").1 =
        Except.error (notFoundErr "a")) ∧
    ((lookupA (userSub demoStore "u") "a").isNone = true →
      (remove_task demoStore "u" "a").1 =
        Except.error (notFoundErr "a")) :=
  C7_remove demoStore "u" "a" (by decide)

/-- Frame and projection lemma for `add_task`: another user's entry is
untouched, and the returned value only depends on the caller's own
sub-mapping. -/
theorem add_task_isolated (s1 s2 : Store) (u v : String) (hne : v ≠ u)
    (hagree : lookupA s1 u = lookupA s2 u) (title : String)
    (due pri : Option String) (tags : Option (List String))
    (notes : Option String) (tid now : String) :
    lookupA (add_task s1 u title due pri tags notes tid now).2 v =
      lookupA s1 v ∧
    (add_task s1 u title due pri tags notes tid now).1 =
      (add_task s2 u title due pri tags notes tid now).1 := by
  by_cases hu : u = ""
  · subst hu
    by_cases ht : title = "" ∨ pyStrip title = "" <;>
      simp [add_task, userTasks, ht]
  · by_cases ht : title = "" ∨ pyStrip title = ""
    · simp [add_task, ht]
    · constructor
      · simp [add_task, ht, userTasks_ok s1 u hu,
          lookupA_setA_ne _ _ _ _ hne, lookupA_touch_ne s1 u v hne]
      · simp [add_task, ht, userTasks_ok s1 u hu, userTasks_ok s2 u hu]

/-- Frame and projection lemma for `list_tasks`. -/
theorem list_tasks_isolated (s1 s2 : Store) (u v : String) (hne : v ≠ u)
    (hagree : lookupA s1 u = lookupA s2 u) (st tg se : Option String) :
    lookupA (list_tasks s1 u st tg se).2 v = lookupA s1 v ∧
    (list_tasks s1 u st tg se).1 = (list_tasks s2 u st tg se).1 := by
  have hsub : userSub s1 u = userSub s2 u := by unfold userSub; rw [hagree]
  by_cases hu : u = ""
  · subst hu; simp [list_tasks, userTasks]
  · constructor
    · simp [list_tasks, userTasks_ok s1 u hu, lookupA_touch_ne s1 u v hne]
    · simp [list_tasks, userTasks_ok s1 u hu, userTasks_ok s2 u hu, hsub]

/-- Frame and projection lemma for `get_task`. -/
theorem get_task_isolated (s1 s2 : Store) (u v : String) (hne : v ≠ u)
    (hagree : lookupA s1 u = lookupA s2 u) (tid : String) :
    lookupA (get_task s1 u tid).2 v = lookupA s1 v ∧
    (get_task s1 u tid).1 = (get_task s2 u tid).1 := by
  have hsub : userSub s1 u = userSub s2 u := by unfold userSub; rw [hagree]
  by_cases hu : u = ""
  · subst hu; simp [get_task, userTasks]
  · cases hq : lookupA (userSub s1 u) tid with
    | none =>
      have hq2 : lookupA (userSub s2 u) tid = none := hsub ▸ hq
      exact ⟨by simp [get_task, userTasks_ok s1 u hu, hq,
          lookupA_touch_ne s1 u v hne],
        by simp [get_task, userTasks_ok s1 u hu, userTasks_ok s2 u hu,
          hq, hq2]⟩
    | some t =>
      have hq2 : lookupA (userSub s2 u) tid = some t := hsub ▸ hq
      exact ⟨by simp [get_task, userTasks_ok s1 u hu, hq,
          lookupA_touch_ne s1 u v hne],
        by simp [get_task, userTasks_ok s1 u hu, userTasks_ok s2 u hu,
          hq, hq2]⟩

/-- Frame and projection lemma for `complete_task`. -/
theorem complete_task_isolated (s1 s2 : Store) (u v : String) (hne : v ≠ u)
    (hagree : lookupA s1 u = lookupA s2 u) (tid now : String) :
    lookupA (complete_task s1 u tid now).2 v = lookupA s1 v ∧
    (complete_task s1 u tid now).1 = (complete_task s2 u tid now).1 := by
  have hsub : userSub s1 u = userSub s2 u := by unfold userSub; rw [hagree]
  by_cases hu : u = ""
  · subst hu; simp [complete_task, userTasks]
  · cases hq : lookupA (userSub s1 u) tid with
    | none =>
      have hq2 : lookupA (userSub s2 u) tid = none := hsub ▸ hq
      exact ⟨by simp [complete_task, userTasks_ok s1 u hu, hq,
          lookupA_touch_ne s1 u v hne],
        by simp [complete_task, userTasks_ok s1 u hu,
          userTasks_ok s2 u hu, hq, hq2]⟩
    | some t =>
      have hq2 : lookupA (userSub s2 u) tid = some t := hsub ▸ hq
      exact ⟨by simp [complete_task, userTasks_ok s1 u hu, hq,
          lookupA_setA_ne _ _ _ _ hne, lookupA_touch_ne s1 u v hne],
        by simp [complete_task, userTasks_ok s1 u hu,
          userTasks_ok s2 u hu, hq, hq2]⟩

/-- Frame and projection lemma for `remove_task`. -/
theorem remove_task_isolated (s1 s2 : Store) (u v : String) (hne : v ≠ u)
    (hagree : lookupA s1 u = lookupA s2 u) (tid : String) :
    lookupA (remove_task s1 u tid).2 v = lookupA s1 v ∧
    (remove_task s1 u tid).1 = (remove_task s2 u tid).1 := by
  have hsub : userSub s1 u = userSub s2 u := by unfold userSub; rw [hagree]
  by_cases hu : u = ""
  · subst hu; simp [remove_task, userTasks]
  · cases hq : lookupA (userSub s1 u) tid with
    | none =>
      have hq2 : lookupA (userSub s2 u) tid = none := hsub ▸ hq
      exact ⟨by simp [remove_task, userTasks_ok s1 u hu, hq,
          lookupA_touch_ne s1 u v hne],
        by simp [remove_task, userTasks_ok s1 u hu,
          userTasks_ok s2 u hu, hq, hq2]⟩
    | some t =>
      have hq2 : lookupA (userSub s2 u) tid = some t := hsub ▸ hq
      exact ⟨by simp [remove_task, userTasks_ok s1 u hu, hq,
          lookupA_setA_ne _ _ _ _ hne, lookupA_touch_ne s1 u v hne],
        by simp [remove_task, userTasks_ok s1 u hu,
          userTasks_ok s2 u hu, hq, hq2]⟩

/-- C9: store partitioning.  For distinct users `v ≠ u`, every operation
invoked as `u` leaves `v`'s entry in the store unchanged; and on two stores
that agree on `u`'s sub-mapping, every operation invoked as `u` returns the
same value. -/
theorem C9_isolation (s1 s2 : Store) (u v : String) (hne : v ≠ u)
    (hagree : lookupA s1 u = lookupA s2 u) :
    (∀ title due pri tags notes tid now,
      lookupA (add_task s1 u title due pri tags notes tid now).2 v =
        lookupA s1 v ∧
      (add_task s1 u title due pri tags notes tid now).1 =
        (add_task s2 u title due pri tags notes tid now).1) ∧
    (∀ st tg se,
      lookupA (list_tasks s1 u st tg se).2 v = lookupA s1 v ∧
      (list_tasks s1 u st tg se).1 = (list_tasks s2 u st tg se).1) ∧
    (∀ tid,
      lookupA (get_task s1 u tid).2 v = lookupA s1 v ∧
      (get_task s1 u tid).1 = (get_task s2 u tid).1) ∧
    (∀ tid now,
      lookupA (complete_task s1 u tid now).2 v = lookupA s1 v ∧
      (complete_task s1 u tid now).1 = (complete_task s2 u tid now).1) ∧
    (∀ tid,
      lookupA (remove_task s1 u tid).2 v = lookupA s1 v ∧
      (remove_task s1 u tid).1 = (remove_task s2 u tid).1) :=
  ⟨fun title due pri tags notes tid now =>
      add_task_isolated s1 s2 u v hne hagree title due pri tags notes tid now,
    fun st tg se => list_tasks_isolated s1 s2 u v hne hagree st tg se,
    fun tid => get_task_isolated s1 s2 u v hne hagree tid,
    fun tid now => complete_task_isolated s1 s2 u v hne hagree tid now,
    fun tid => remove_task_isolated s1 s2 u v hne hagree tid⟩

theorem C9_isolation_witness :
    (∀ title due pri tags notes tid now,
      lookupA (add_task demoStore "u" title due pri tags notes tid now).2
        "z" = lookupA demoStore "z" ∧
      (add_task demoStore "u" title due pri tags notes tid now).1 =
        (add_task demoStore2 "u" title due pri tags notes tid now).1) ∧
    (∀ st tg se,
      lookupA (list_tasks demoStore "u" st tg se).2 "z" =
        lookupA demoStore "z" ∧
      (list_tasks demoStore "u" st tg se).1 =
        (list_tasks demoStore2 "u" st tg se).1) ∧
    (∀ tid,
      lookupA (get_task demoStore "u" tid).2 "z" = lookupA demoStore "z" ∧
      (get_task demoStore "u" tid).1 = (get_task demoStore2 "u" tid).1) ∧
    (∀ tid now,
      lookupA (complete_task demoStore "u" tid now).2 "z" =
        lookupA demoStore "z" ∧
      (complete_task demoStore "u" tid now).1 =
        (complete_task demoStore2 "u" tid now).1) ∧
    (∀ tid,
      lookupA (remove_task demoStore "u" tid).2 "z" =
        lookupA demoStore "z" ∧
      (remove_task demoStore "u" tid).1 =
        (remove_task demoStore2 "u" tid).1) :=
  C9_isolation demoStore demoStore2 "u" "z" (by decide) rfl

/-- C10: in `list`, an empty-string filter value is falsy in Python
(`if status:` / `if tag:` / `if search:`), so it behaves exactly as an
absent filter: result and store effect are identical. -/
theorem C10_empty_filter_as_absent (store : Store) (uid : String)
    (st tg se : Option String) :
    list_tasks store uid (some "") tg se = list_tasks store uid none tg se ∧
    list_tasks store uid st (some "") se = list_tasks store uid st none se ∧
    list_tasks store uid st tg (some "") = list_tasks store uid st tg none := by
  unfold list_tasks
  cases userTasks store uid with
  | mk r s1 => cases r <;> simp [applyFilter]

end TaskApp
